import Mathlib

/-!
Verification development for the multimodal isochrone backend.

Shallow embedding of the travel-time acquisition and isochrone synthesis
pipeline: the inverse-distance-weighting interpolator, the point-mode travel
cache, the persistent distance cache, the compute endpoints' response-status
logic, the candidate evaluator, the degenerate travel-time shortcuts, the
batch scheduler, the rate-limited request gate, radial sampling, and the
ISO-8601 duration decoder.

Numbers are embedded exactly: Python floats used by the code are modelled as
rationals (`ℚ`), and the few calls into numeric libraries (numpy's sqrt and
float power) are taken as function parameters constrained, where needed, at
the concrete inputs on which they are mathematically forced.
-/

/-- A geographic point as an (x, y) pair of exact coordinates
(shapely `Point`; equality is coordinate equality, as `Point.equals` and
`Point.__eq__` give on points). -/
abbrev Pt := ℚ × ℚ

/- ----------------------------------------------------------------------
`app/utils/request_processing.py`: `process_and_get_travel_time`
---------------------------------------------------------------------- -/

/-- Travel-time outcome of `process_and_get_travel_time`: the returned
duration in minutes (`none` models Python `None`), and whether the remote
journey planner (`query_ojp_travel_time`) was invoked. -/
structure TravelTimeOutcome where
  duration : Option ℚ
  remoteCalled : Bool
deriving DecidableEq

/-- The characters of the string "walk". -/
def walkChars : List Char := ['w', 'a', 'l', 'k']

/-- `process_and_get_travel_time(start, end, mode_xml, mode, G, arr, timestamp,
transformer)` from `app/utils/request_processing.py` (lines 153-209).
The projection-and-distance computation (pyproj + shapely) is passed in as
`projectedDistance`; the walking-graph estimate and the remote answer are the
`walkEstimate` and `remote` parameters.  Branch structure follows the source:
identical points return 0.0; projected distance below 30 m returns 1.0; the
walking network handles mode "walk" locally; everything else goes remote. -/
def process_and_get_travel_time (start stop : Pt) (projectedDistance : Pt → Pt → ℚ)
    (walkingNetwork : Bool) (mode : List Char) (walkEstimate remote : Option ℚ) :
    TravelTimeOutcome :=
  if start = stop then ⟨some 0, false⟩
  else if projectedDistance start stop < 30 then ⟨some 1, false⟩
  else if walkingNetwork = true ∧ mode = walkChars then ⟨walkEstimate, false⟩
  else ⟨remote, true⟩

/-- C6: the travel-time resolver returns exactly 0.0 for identical points and
exactly 1.0 for distinct points whose projected distance is under 30 m, in
both cases without issuing a remote call. -/
theorem degenerate_travel_time_ok (start stop : Pt) (projectedDistance : Pt → Pt → ℚ)
    (walkingNetwork : Bool) (mode : List Char) (walkEstimate remote : Option ℚ) :
    (start = stop →
      process_and_get_travel_time start stop projectedDistance walkingNetwork mode
        walkEstimate remote = ⟨some 0, false⟩) ∧
    (start ≠ stop → projectedDistance start stop < 30 →
      process_and_get_travel_time start stop projectedDistance walkingNetwork mode
        walkEstimate remote = ⟨some 1, false⟩) := by
  constructor
  · intro h
    simp [process_and_get_travel_time, h]
  · intro hne hlt
    simp [process_and_get_travel_time, hne, hlt]

/-- Witness for C6: instances of both branches at concrete inputs. -/
theorem degenerate_travel_time_ok_witness :
    process_and_get_travel_time ((0 : ℚ), (0 : ℚ)) ((0 : ℚ), (0 : ℚ)) (fun _ _ => 0) true
      walkChars none none = ⟨some 0, false⟩ ∧
    process_and_get_travel_time ((0 : ℚ), (0 : ℚ)) ((1 : ℚ), (0 : ℚ)) (fun _ _ => 5) true
      walkChars none none = ⟨some 1, false⟩ :=
  ⟨(degenerate_travel_time_ok _ _ _ _ _ _ _).1 rfl,
   (degenerate_travel_time_ok _ _ _ _ _ _ _).2 (by decide) (by norm_num)⟩

/- ----------------------------------------------------------------------
`app/requests/parse_response.py`: `decode_duration`
---------------------------------------------------------------------- -/

/-- Numeric value of a digit-run, as Python `int(...)` computes it. -/
def digitsToNat (ds : List Char) : Nat :=
  ds.foldl (fun acc c => acc * 10 + (c.toNat - 48)) 0

/-- One optional group `(?:(\d+)U)?` of the regex
`PT(?:(\d+)H)?(?:(\d+)M)?(?:(\d+)S)?` applied at the current position: if a
non-empty maximal digit run is immediately followed by the unit letter the
group consumes the run plus the unit and yields its value; otherwise the
group is skipped entirely, consuming nothing, and `int(match.group(i) or 0)`
yields 0.  (Backtracking inside `\d+` cannot help: a shorter digit prefix is
followed by a digit, never by the unit letter, so the regex either takes the
whole run or skips the group.) -/
def matchGroup (unit : Char) (s : List Char) : Nat × List Char :=
  let ds := s.takeWhile Char.isDigit
  let rest := s.dropWhile Char.isDigit
  match ds, rest with
  | _ :: _, u :: rest2 => if u = unit then (digitsToNat ds, rest2) else (0, s)
  | _, _ => (0, s)

/-- `decode_duration(duration)` from `app/requests/parse_response.py`
(lines 124-145): `None` for an empty list; `re.match` anchors at position 0,
so a first element not starting with "PT" also gives `None`; otherwise the
three optional groups are read in sequence and the result is
`hours*60 + minutes + seconds/60` minutes. -/
def decode_duration (duration : List (List Char)) : Option ℚ :=
  match duration with
  | [] => none
  | d :: _ =>
    match d with
    | p :: t :: rest =>
      if p = 'P' ∧ t = 'T' then
        let h := matchGroup 'H' rest
        let m := matchGroup 'M' h.2
        let s := matchGroup 'S' m.2
        some ((h.1 : ℚ) * 60 + (m.1 : ℚ) + (s.1 : ℚ) / 60)
      else none
    | _ => none

/-- Whether a character list starts with the two characters "PT". -/
def startsPT : List Char → Bool
  | p :: t :: _ => p = 'P' && t = 'T'
  | _ => false

/-- C10: a first element starting with "PT" on which none of the H/M/S groups
matches decodes to 0.0 minutes, and `None` is returned exactly for an empty
list or a first element not starting with "PT". -/
theorem decode_duration_ok :
    (∀ (rest : List Char) (tl : List (List Char)),
      matchGroup 'H' rest = (0, rest) → matchGroup 'M' rest = (0, rest) →
      matchGroup 'S' rest = (0, rest) →
      decode_duration (('P' :: 'T' :: rest) :: tl) = some 0) ∧
    (∀ l : List (List Char),
      decode_duration l = none ↔ l = [] ∨ ∃ d tl, l = d :: tl ∧ startsPT d = false) := by
  constructor
  · intro rest tl hH hM hS
    simp only [decode_duration, and_self, if_pos, hH, hM, hS]
    norm_num
  · intro l
    match l with
    | [] => simp [decode_duration]
    | d :: tl =>
      match d with
      | [] => simp [decode_duration, startsPT]
      | [c] => simp [decode_duration, startsPT]
      | p :: t :: rest =>
        by_cases hP : p = 'P' ∧ t = 'T'
        · simp [decode_duration, startsPT, hP.1, hP.2]
        · have hb : startsPT (p :: t :: rest) = false := by
            by_cases h1 : p = 'P'
            · have h2 : ¬t = 'T' := fun h2 => hP ⟨h1, h2⟩
              simp [startsPT, h1, h2]
            · simp [startsPT, h1]
          simp [decode_duration, hP, hb]

/-- Witness for C10: "PT" alone decodes to 0.0, and the empty list to `None`. -/
theorem decode_duration_ok_witness :
    decode_duration [['P', 'T']] = some 0 ∧ decode_duration [] = none :=
  ⟨decode_duration_ok.1 [] [] rfl rfl rfl,
   (decode_duration_ok.2 []).mpr (Or.inl rfl)⟩

/- ----------------------------------------------------------------------
`app/processing/isochrones/interpolation.py`: `inverse_distance_weighting`
---------------------------------------------------------------------- -/

/-- `np.mean` of a list of rationals (the empty case is never exercised
here: the source raises on empty inputs before reaching the statistics). -/
def listMean (l : List ℚ) : ℚ := l.sum / l.length

/-- `np.std`'s argument: the population variance of a list. -/
def listVariance (l : List ℚ) : ℚ :=
  listMean (l.map (fun d => (d - listMean l) ^ 2))

/-- List indexing, as numpy's `times[indices]` uses it (indices produced by
`cKDTree.query` are always in range; out of range is never exercised). -/
def timesAt : List ℚ → Nat → ℚ
  | [], _ => 0
  | t :: _, 0 => t
  | _ :: ts, n + 1 => timesAt ts n

/-- One output cell of `inverse_distance_weighting`: `row` is that cell's
row of the `(distances, indices)` matrices produced by `cKDTree.query`
(the k nearest sample points).  Weights follow line 65 of the source:
`np.where(distances == 0, 1e-10, 1 / (distances ** adjusted_power))`, the
float power being the parameter `fpow`.  Weights are then normalized per
cell and combined with `times[indices]`. -/
def idwCell (fpow : ℚ → ℚ → ℚ) (adjustedPower : ℚ) (times : List ℚ)
    (row : List (ℚ × Nat)) : ℚ :=
  let weights := row.map (fun dr => if dr.1 = 0 then 1 / 10 ^ 10 else 1 / fpow dr.1 adjustedPower)
  let s := weights.sum
  (List.zipWith (fun w dr => w / s * timesAt times dr.2) weights row).sum

/-- `inverse_distance_weighting(points, times, grid_x, grid_y, power, k)`
from `app/processing/isochrones/interpolation.py` (lines 33-69), per grid
cell.  The external pieces are parameters: `fsqrt` is the square root inside
`np.std`, `fpow` the float `**`, and `rows` the `(distances, indices)` result
of the scipy `cKDTree.query` call, one row per flattened grid cell.  The
adaptive exponent is `power + std(distances) / (mean(distances) + 1e-10)`,
computed over the whole distance matrix, exactly as in the source. -/
def inverse_distance_weighting (fsqrt : ℚ → ℚ) (fpow : ℚ → ℚ → ℚ) (power : ℚ)
    (times : List ℚ) (rows : List (List (ℚ × Nat))) : List ℚ :=
  let allDistances := (rows.map (fun row => row.map Prod.fst)).flatten
  let adjustedPower :=
    power + fsqrt (listVariance allDistances) / (listMean allDistances + 1 / 10 ^ 10)
  rows.map (idwCell fpow adjustedPower times)

/-- numpy's square root, pinned at the single input this file evaluates it
on: √(1/4) = 1/2 exactly (forced for any model of the real square root). -/
def sqrtAtQuarter : ℚ → ℚ := fun x => if x = 1 / 4 then 1 / 2 else 0

/-- Python's float power, pinned at the single base this file evaluates it
on: 1 ** p = 1 for every exponent (forced for any model of float power). -/
def powAtOne : ℚ → ℚ → ℚ := fun d _ => if d = 1 then 1 else 0

/-- C1 (bug witness): two samples at distance 0 and 1 from a single grid
cell, with times 0 and 100 and `k = 2`.  Mean distance is 1/2, the variance
1/4, so the adaptive power is `2 + (1/2)/(1/2 + 1e-10)` — as the claim
states — but the distance-0 sample receives pre-normalization weight 1e-10,
not 1e10, so the cell evaluates to `100·10¹⁰/(10¹⁰+1) > 99` instead of the
coincident sample's time 0. -/
theorem idw_zero_distance_weight_bug :
    inverse_distance_weighting sqrtAtQuarter powAtOne 2 [0, 100] [[(0, 0), (1, 1)]]
      = [10 ^ 12 / (10 ^ 10 + 1)] ∧
    ((10 : ℚ) ^ 12 / (10 ^ 10 + 1) > 99) := by
  constructor
  · norm_num [inverse_distance_weighting, idwCell, listMean, listVariance, sqrtAtQuarter,
      powAtOne, timesAt]
  · norm_num

/- ----------------------------------------------------------------------
`app/data/travel_data.py`: `store_point_travel_time`,
`app/processing/travel_times/point_travel_logic.py`: `should_skip_radial_point`,
`app/processing/travel_times/travel_computation.py`: `point_travel_times_async`
---------------------------------------------------------------------- -/

/-- One mode's `point_isochrones` sub-cache: a dictionary keyed by center
point whose values are `{"points": [...], "travel_times": [...]}` entries. -/
abbrev PointIsoCache := List (Pt × (List Pt × List ℚ))

/-- Dictionary lookup. -/
def lookupEntry : PointIsoCache → Pt → Option (List Pt × List ℚ)
  | [], _ => none
  | e :: rest, c => if e.1 = c then some e.2 else lookupEntry rest c

/-- Dictionary assignment `d[center] = value` (replaces an existing value). -/
def setEntry : PointIsoCache → Pt → (List Pt × List ℚ) → PointIsoCache
  | [], c, v => [(c, v)]
  | e :: rest, c, v => if e.1 = c then (c, v) :: rest else e :: setEntry rest c v

/-- `store_point_travel_time(mode, center, points, travel_times, travel_data)`
from `app/data/travel_data.py` (lines 157-177), restricted to one mode's
sub-cache: `travel_data[mode]["point_isochrones"][center] = {"points": points,
"travel_times": travel_times}` — a plain replacement of the center's entry. -/
def store_point_travel_time (center : Pt) (points : List Pt) (travel_times : List ℚ)
    (cache : PointIsoCache) : PointIsoCache :=
  setEntry cache center (points, travel_times)

/-- `should_skip_radial_point(point, mode_data, center)` from
`app/processing/travel_times/point_travel_logic.py` (lines 71-93): true iff
the center has an entry whose `"points"` list contains the radial point. -/
def should_skip_radial_point (point : Pt) (cache : PointIsoCache) (center : Pt) : Bool :=
  match lookupEntry cache center with
  | some e => decide (point ∈ e.1)
  | none => false

/-- `process_single_point(...)` from
`app/processing/travel_times/async_helpers.py` (lines 165-251), with the
whole leg resolution (`resolve_destination_station` +
`compute_total_point_time`) abstracted into the `totalTime` oracle: an
already-processed radial point yields `(None, None)`; otherwise the total
time is computed, `None` meaning a per-point failure. -/
def process_single_point (radial_point : Pt) (cache : PointIsoCache) (center : Pt)
    (totalTime : Pt → Option ℚ) : Option Pt × Option ℚ :=
  if should_skip_radial_point radial_point cache center then (none, none)
  else
    match totalTime radial_point with
    | some t => (some radial_point, some t)
    | none => (none, none)

/-- The result-collection loop and final store of `point_travel_times_async`
(`app/processing/travel_times/travel_computation.py`, lines 346-421,
non-performance path without a rate-limit error): each radial point is
processed against the *pre-existing* cache, results with a truthy point and
truthy time are gathered into fresh `valid_points` / `travel_times` lists
(Python truthiness makes a 0.0 time falsy, line 411), and the center's entry
is then replaced by exactly those lists. -/
def point_travel_times (cache : PointIsoCache) (center : Pt) (points : List Pt)
    (totalTime : Pt → Option ℚ) : PointIsoCache :=
  let results := points.map (fun p => process_single_point p cache center totalTime)
  let valid := results.filterMap (fun r =>
    match r with
    | (some p, some t) => if t = 0 then none else some (p, t)
    | _ => none)
  store_point_travel_time center (valid.map Prod.fst) (valid.map Prod.snd) cache

/-- C2 (bug witness): a center whose cache already holds the pair
((1,0), 7).  Re-running the center over `[(1,0), (0,1)]` skips the stored
point (1,0) and then *replaces* the entry with only the newly computed pair
((0,1), 5): the previously stored pair is removed instead of preserved. -/
theorem point_cache_rerun_drops_entries :
    lookupEntry
      (point_travel_times [(((0 : ℚ), (0 : ℚ)), ([(1, 0)], [7]))] (0, 0) [(1, 0), (0, 1)]
        (fun p => if p = (0, 1) then some 5 else some 9))
      (0, 0) = some ([(0, 1)], [5]) ∧
    ((1 : ℚ), (0 : ℚ)) ∉ [((0 : ℚ), (1 : ℚ))] := by
  constructor
  · decide
  · decide

/- ----------------------------------------------------------------------
`app/data/distance_storage.py`: `DistanceCache.set_cached_nearest` / `save`
---------------------------------------------------------------------- -/

/-- State of the `DistanceCache` object: the in-memory `data` dictionary
(keyed by mode and destination), the insertion `counter`, and the last
content written to `DISTANCE_FILE` on disk. -/
structure DistanceCacheState where
  data : List ((List Char × Pt) × (Pt × ℚ))
  counter : Nat
  disk : List ((List Char × Pt) × (Pt × ℚ))
deriving DecidableEq

/-- Dictionary assignment for the distance cache
(`self.data[mode][dest] = (nearest, distance)`). -/
def setDistEntry : List ((List Char × Pt) × (Pt × ℚ)) → (List Char × Pt) → (Pt × ℚ) →
    List ((List Char × Pt) × (Pt × ℚ))
  | [], k, v => [(k, v)]
  | e :: rest, k, v => if e.1 = k then (k, v) :: rest else e :: setDistEntry rest k v

/-- `DistanceCache.save` from `app/data/distance_storage.py` (lines 82-93):
the body opens with `async with DistanceCacheLock`.  `DistanceCacheLock` is a
plain `asyncio.Lock` (`app/core/config.py`, line 104), which is not
reentrant: a task that already holds it and acquires it again waits forever.
`heldByTask` says whether the calling task already holds the lock; `none`
models that non-termination, `some` the completed write of `data` to disk. -/
def DistanceCache.save (heldByTask : Bool) (st : DistanceCacheState) :
    Option DistanceCacheState :=
  if heldByTask then none
  else some { st with disk := st.data }

/-- `DistanceCache.set_cached_nearest(dest, nearest, mode, distance)` from
`app/data/distance_storage.py` (lines 117-144): inside
`async with DistanceCacheLock` the entry is stored, the counter incremented,
and every time `counter % 50 == 0` the method awaits `self.save()` — while
still holding `DistanceCacheLock`, so `save`'s own acquisition of the same
lock is entered with `heldByTask = true`. -/
def set_cached_nearest (st : DistanceCacheState) (dest nearest : Pt) (mode : List Char)
    (distance : ℚ) : Option DistanceCacheState :=
  let st1 : DistanceCacheState :=
    { st with data := setDistEntry st.data (mode, dest) (nearest, distance),
              counter := st.counter + 1 }
  if st1.counter % 50 = 0 then DistanceCache.save true st1
  else some st1

/-- C3 (bug witness): the 50th insertion (counter 49 → 50) triggers the
flush, but the flush acquires the already-held non-reentrant
`DistanceCacheLock` and never completes — the insertion call does not
terminate and nothing is persisted.  A non-triggering insertion (counter
0 → 1) terminates normally without touching the disk image. -/
theorem distance_cache_flush_deadlock :
    set_cached_nearest ⟨[], 49, []⟩ (0, 0) (1, 1) walkChars 5 = none ∧
    set_cached_nearest ⟨[], 0, []⟩ (0, 0) (1, 1) walkChars 5 =
      some ⟨[((walkChars, (0, 0)), ((1, 1), 5))], 1, []⟩ := by
  constructor
  · decide
  · decide

/- ----------------------------------------------------------------------
`app/sampling/radial_sampling.py`: `generate_radial_grid`
---------------------------------------------------------------------- -/

/-- `generate_radial_grid(center_point, polygon, water_gdf, water_sindex,
max_radius, mode, performance, transformer, ...)` from
`app/sampling/radial_sampling.py` (lines 28-150), selection pipeline.  The
numeric candidate generation (the four directional offsets plus the jittered
concentric rings, numpy), the water/polygon validity test `is_valid`
(shapely/geopandas) and the k-means reduction (sklearn `KMeans`) are taken
as parameters, as the source delegates them to external libraries:
`candidates` are the projected candidate points in generation order,
`isValid` the spatial filter, `unproject` the inverse transform back to
EPSG:4326, and `kmeansCenters maxPoints pts` the cluster centers.  The final
step is the source's `if not performance: selected_points.append(center_point)`. -/
def generate_radial_grid (performance : Bool) (center_point : Pt) (maxPoints : Nat)
    (candidates : List Pt) (isValid : Pt → Bool) (unproject : Pt → Pt)
    (kmeansCenters : Nat → List Pt → List Pt) : List Pt :=
  let selected := (candidates.filter isValid).map unproject
  let selected := if maxPoints < selected.length then kmeansCenters maxPoints selected
                  else selected
  if performance = false then selected ++ [center_point] else selected

/-- C9 (bug witness): with `performance = True` the returned list omits the
center (here: valid candidates (10,0) and (0,10) around center (0,0), no
clustering), while the same call with `performance = False` includes it. -/
theorem radial_grid_center_missing_in_performance :
    ((0 : ℚ), (0 : ℚ)) ∉
      generate_radial_grid true (0, 0) 50 [(10, 0), (0, 10)] (fun _ => true)
        (fun p => p) (fun _ l => l) ∧
    ((0 : ℚ), (0 : ℚ)) ∈
      generate_radial_grid false (0, 0) 50 [(10, 0), (0, 10)] (fun _ => true)
        (fun p => p) (fun _ l => l) := by
  constructor
  · decide
  · decide

/- ----------------------------------------------------------------------
`app/utils/candidate_selection.py`: `distance_weights`
(parameters from `app/utils/mode_utils.py`: `params_distance_calculation`)
---------------------------------------------------------------------- -/

/-- `dict.get(m, 0)` lookup in the mode-priority table. -/
def lookupPrio : List (List Char × ℚ) → List Char → ℚ
  | [], _ => 0
  | e :: rest, m => if e.1 = m then e.2 else lookupPrio rest m

/-- Python `max(scores, default=0)`. -/
def pyMax : List ℚ → ℚ
  | [] => 0
  | x :: xs => xs.foldl max x

/-- `USE_MODE_WEIGHTING` from `app/core/config.py` (line 68). -/
def USE_MODE_WEIGHTING : Bool := true

/-- `distance_weights(transport_modes, walk_distance, mode_priority,
base_max_distance, boost_factor, priority_boost_factor, weight_factor_base)`
from `app/utils/candidate_selection.py` (lines 46-93).  Note the two details
of the source mirrored here: the priority boost applies only when
`highest_priority > 1` (line 78), and the rejection test is
`walk_distance >= adjusted_max_distance` (line 85). -/
def distance_weights (transport_modes : List (List Char)) (walk_distance : ℚ)
    (mode_priority : List (List Char × ℚ))
    (base_max_distance boost_factor priority_boost_factor weight_factor_base : ℚ) :
    Option ℚ :=
  let mode_scores := transport_modes.map (lookupPrio mode_priority)
  let total_priority_score := mode_scores.sum
  let highest_priority := pyMax mode_scores
  let count_boost := boost_factor * ((transport_modes.length : ℚ) - 1)
  let priority_boost := if 1 < highest_priority then priority_boost_factor * highest_priority else 0
  let adjusted_max_distance :=
    if USE_MODE_WEIGHTING = true then base_max_distance * (1 + count_boost + priority_boost)
    else base_max_distance
  if adjusted_max_distance ≤ walk_distance then none
  else some (if USE_MODE_WEIGHTING = true then
      1 + weight_factor_base * (total_priority_score + 1 / 2 * ((transport_modes.length : ℚ) - 1))
    else 1)

/-- The `mode_priority` table from `params_distance_calculation`
(`app/utils/mode_utils.py`, lines 156-162). -/
def mode_priority : List (List Char × ℚ) :=
  [(r"rail".toList, 2), (r"TRAIN".toList, 2), (r"tram".toList, 1), (r"TRAM".toList, 1),
   (r"bus".toList, 0), (r"BUS".toList, 0), (r"suburbanRail".toList, 1), (r"urbanRail".toList, 1),
   (r"metro".toList, 1), (r"underground".toList, 1), (r"coach".toList, 0), (r"water".toList, 1),
   (r"air".toList, 2), (r"telecabin".toList, 0), (r"funicular".toList, 0), (r"taxi".toList, 1),
   (r"selfDrive".toList, 1), (r"unknown".toList, 0), (r"CABLE_RAILWAY".toList, 0),
   (r"CABLE_CAR".toList, 0), (r"METRO".toList, 1), (r"RACK_RAILWAY".toList, 1),
   (r"CHAIRLIFT".toList, 0), (r"BOAT".toList, 1), (r"ELEVATOR".toList, 0), (r"UNKNOWN".toList, 0)]

/-- C5 counterexample: a candidate offering only "tram" (priority 1, the
highest of its modes) with walk distance 620 m and the non-rental parameters
of `params_distance_calculation` (base 600, count boost 0.05, priority boost
0.10).  The claimed threshold `base·(1 + count_boost·(|M|−1) +
priority_boost·max_priority)` is 660 > 620, yet the candidate is rejected:
the source applies the priority boost only when the highest priority
exceeds 1, so the actual threshold is 600 ≤ 620. -/
theorem adjusted_max_walk_counterexample :
    lookupPrio mode_priority (r"tram".toList) = 1 ∧
    distance_weights [r"tram".toList] 620 mode_priority 600 (1 / 20) (1 / 10) (1 / 20) = none ∧
    (620 : ℚ) < 600 * (1 + 1 / 20 * ((1 : ℚ) - 1) + 1 / 10 * 1) := by
  refine ⟨by decide, ?_, by norm_num⟩
  have h1 : lookupPrio mode_priority ['t', 'r', 'a', 'm'] = 1 := by decide
  norm_num [distance_weights, h1, pyMax, USE_MODE_WEIGHTING]

/-- C5 as amended: with mode weighting enabled (the configured value), a
candidate is rejected by `distance_weights` exactly when its walk distance
reaches or exceeds `base·(1 + count_boost·(|M|−1) + priority_boost·max_priority
[only when max_priority > 1])`. -/
theorem adjusted_max_walk_amended (transport_modes : List (List Char)) (walk_distance : ℚ)
    (prio : List (List Char × ℚ)) (base bf pbf wfb : ℚ) :
    distance_weights transport_modes walk_distance prio base bf pbf wfb = none ↔
      base * (1 + bf * ((transport_modes.length : ℚ) - 1) +
        (if 1 < pyMax (transport_modes.map (lookupPrio prio)) then
          pbf * pyMax (transport_modes.map (lookupPrio prio)) else 0)) ≤ walk_distance := by
  simp only [distance_weights, USE_MODE_WEIGHTING, if_true]
  split <;> simp_all

/- ----------------------------------------------------------------------
`app/api/endpoints/compute.py`: response status on rate-limit
(`compute_point_isochrones`, lines 314-393;
`compute_network_isochrones`, lines 221-311)
---------------------------------------------------------------------- -/

/-- Whether `needle` is a prefix of the second list (character-wise). -/
def listStartsWith : List Char → List Char → Bool
  | [], _ => true
  | _ :: _, [] => false
  | a :: as, b :: bs => a = b && listStartsWith as bs

/-- Python's substring test `needle in haystack`. -/
def listHas (needle : List Char) : List Char → Bool
  | [] => needle.isEmpty
  | c :: rest => listStartsWith needle (c :: rest) || listHas needle rest

/-- The characters of "429". -/
def err429 : List Char := ['4', '2', '9']

/-- The response `status` strings of `ComputeResponse`:
"success", "failed", "partial success", "skipped". -/
inductive Status where
  | success
  | failed
  | partSuccess
  | skipped
deriving DecidableEq

/-- One element of the `results` list that `run_in_batches` hands back to
`point_travel_times_async`: either a `(Optional[Point], Optional[float])`
tuple from `process_single_point`, or an error string from `safe_await`. -/
inductive PointTaskResult where
  | pair (p : Option Pt) (t : Option ℚ)
  | errText (s : List Char)

/-- The result-collection loop of `point_travel_times_async`
(`app/processing/travel_times/travel_computation.py`, lines 410-416): tuples
whose point and time are both truthy (Python truthiness: a 0.0 time is
falsy) are gathered; the first string containing "429" sets the rate-limit
flag and `break`s, discarding everything after it; other strings are
ignored. -/
def collectPointResults : List PointTaskResult → List (Pt × ℚ) × Option (List Char)
  | [] => ([], none)
  | .pair (some p) (some t) :: rest =>
    if t = 0 then collectPointResults rest
    else
      let pr := collectPointResults rest
      ((p, t) :: pr.1, pr.2)
  | .pair none _ :: rest => collectPointResults rest
  | .pair (some _) none :: rest => collectPointResults rest
  | .errText s :: rest =>
    if listHas err429 s then ([], some s) else collectPointResults rest

/-- The endpoint test `rate_limit_flag and "429" in rate_limit_flag`. -/
def check429 : Option (List Char) → Bool
  | some s => listHas err429 s
  | none => false

/-- The status decision of `compute_point_isochrones`
(`app/api/endpoints/compute.py`, lines 351-393): a set rate-limit flag gives
"failed" (lines 358-363) *before* any inspection of the collected results;
then `not success` gives "failed", otherwise "success". -/
def compute_point_isochrones_status (results : List PointTaskResult) (success : Bool) :
    Status :=
  let pr := collectPointResults results
  if check429 pr.2 then Status.failed
  else if success = false then Status.failed
  else Status.success

/-- The status decision of `compute_network_isochrones`
(`app/api/endpoints/compute.py`, lines 249-311): a 429 flag from the first
pass gives "failed" (lines 257-262); with `IMPROVE_ISOCHRONES` the flag is
re-assigned by the improvement pass, and the final check (lines 297-304)
gives "partial success"; otherwise "success". -/
def compute_network_isochrones_status (flag1 : Option (List Char)) (improve : Bool)
    (flag2 : Option (List Char)) : Status :=
  if check429 flag1 then Status.failed
  else
    let finalFlag := if improve then flag2 else flag1
    if check429 finalFlag then Status.partSuccess
    else Status.success

/-- The rate-limit error string produced by `safe_await`
(`travel_computation.py`, line 131). -/
def rateErrChars : List Char := r"error: 429, rate limit exceeded for the OJP API".toList

/-- A set rate-limit flag always contains "429". -/
theorem collect_flag_has429 (results : List PointTaskResult) (s : List Char)
    (h : (collectPointResults results).2 = some s) : listHas err429 s = true := by
  induction results with
  | nil => simp [collectPointResults] at h
  | cons r rest ih =>
    match r with
    | .pair (some p) (some t) =>
      by_cases ht : t = 0
      · simp only [collectPointResults, if_pos ht] at h
        exact ih h
      · simp only [collectPointResults, if_neg ht] at h
        exact ih h
    | .pair none t => exact ih (by simpa [collectPointResults] using h)
    | .pair (some p) none => exact ih (by simpa [collectPointResults] using h)
    | .errText e =>
      by_cases he : listHas err429 e = true
      · simp only [collectPointResults, if_pos he] at h
        obtain rfl : e = s := by simpa using h
        exact he
      · simp only [collectPointResults, if_neg he] at h
        exact ih h

/-- C4 counterexample: a point-mode run in which one point result exists
(the pair ((0,0), 3) collected before the rate-limit error) and the journey
planner then signals quota exhaustion.  The claim demands "partial_success
whenever at least one point result exists"; the endpoint returns "failed". -/
theorem rate_limit_status_counterexample :
    (collectPointResults
      [PointTaskResult.pair (some ((0 : ℚ), (0 : ℚ))) (some 3),
       PointTaskResult.errText rateErrChars]).1 = [(((0 : ℚ), (0 : ℚ)), 3)] ∧
    compute_point_isochrones_status
      [PointTaskResult.pair (some ((0 : ℚ), (0 : ℚ))) (some 3),
       PointTaskResult.errText rateErrChars] true = Status.failed ∧
    Status.failed ≠ Status.partSuccess := by
  refine ⟨by decide, by decide, by decide⟩

/-- C4 as amended: on quota exhaustion during main travel-time resolution
the response is "failed" regardless of how many results exist (point mode
shown; the network first pass behaves identically), and "partial success"
arises only when the quota exhaustion happens during the network-mode
isochrone-improvement pass after a clean first pass. -/
theorem rate_limit_status_amended :
    (∀ (results : List PointTaskResult) (success : Bool) (s : List Char),
      (collectPointResults results).2 = some s →
      compute_point_isochrones_status results success = Status.failed) ∧
    (∀ (flag1 flag2 : Option (List Char)) (improve : Bool),
      check429 flag1 = true →
      compute_network_isochrones_status flag1 improve flag2 = Status.failed) ∧
    (∀ flag2 : Option (List Char),
      check429 flag2 = true →
      compute_network_isochrones_status none true flag2 = Status.partSuccess) := by
  refine ⟨?_, ?_, ?_⟩
  · intro results success s h
    have h4 := collect_flag_has429 results s h
    simp [compute_point_isochrones_status, h, check429, h4]
  · intro flag1 flag2 improve h
    simp [compute_network_isochrones_status, h]
  · intro flag2 h
    have h0 : check429 (none : Option (List Char)) = false := rfl
    simp [compute_network_isochrones_status, h0, h]

/-- Witness for C4's amended theorem: all three branches at concrete flags. -/
theorem rate_limit_status_amended_witness :
    compute_point_isochrones_status [PointTaskResult.errText rateErrChars] true = Status.failed ∧
    compute_network_isochrones_status (some rateErrChars) false none = Status.failed ∧
    compute_network_isochrones_status none true (some rateErrChars) = Status.partSuccess :=
  ⟨rate_limit_status_amended.1 _ true rateErrChars (by decide),
   rate_limit_status_amended.2.1 (some rateErrChars) none false (by decide),
   rate_limit_status_amended.2.2 (some rateErrChars) (by decide)⟩

/- ----------------------------------------------------------------------
`app/processing/travel_times/travel_computation.py`: `run_in_batches`
---------------------------------------------------------------------- -/

/-- The batch slicing `tasks[i : i + batch_size]` of `run_in_batches`
(`travel_computation.py`, lines 140-141).  A zero batch size is never used
by the source (its callers pass 20 and 50). -/
def chunkList {α : Type} (n : Nat) : List α → List (List α)
  | [] => []
  | x :: xs =>
    if _h : n = 0 then [x :: xs]
    else (x :: xs).take n :: chunkList n ((x :: xs).drop n)
termination_by l => l.length
decreasing_by
  simp only [List.length_drop, List.length_cons]
  omega

/-- The `asyncio.as_completed` loop over one batch (`travel_computation.py`,
lines 160-179), over the batch's task results listed in completion order:
each finished result is appended; as soon as `abort_condition` holds for the
last appended result the remaining pending tasks are cancelled and the loop
breaks.  Returns the collected results and whether the abort fired. -/
def batchStep {α : Type} (abort : α → Bool) : List α → List α × Bool
  | [] => ([], false)
  | r :: rest =>
    if abort r then ([r], true)
    else
      let p := batchStep abort rest
      (r :: p.1, p.2)

/-- The outer batch loop of `run_in_batches` (lines 140-189): batches run in
order, each batch's collected results are appended to `results`, and once
`abort_triggered` is set no further batch is started. -/
def runBatches {α : Type} (abort : α → Bool) : List (List α) → List α
  | [] => []
  | b :: bs =>
    let p := batchStep abort b
    if p.2 then p.1 else p.1 ++ runBatches abort bs

/-- `run_in_batches(tasks, batch_size, …, abort_condition, …)` in the special
case where each batch completes in submission order; the general behaviour,
quantified over arbitrary completion orders, is stated against `runBatches`
plus a permutation of `chunkList`. -/
def run_in_batches {α : Type} (abort : α → Bool) (batchSize : Nat) (tasks : List α) :
    List α :=
  runBatches abort (chunkList batchSize tasks)

/-- A batch none of whose results triggers the abort is collected whole. -/
theorem batchStep_no_abort {α : Type} (abort : α → Bool) (b : List α)
    (h : ∀ x ∈ b, abort x = false) : batchStep abort b = (b, false) := by
  induction b with
  | nil => rfl
  | cons x xs ih =>
    have hx : abort x = false := h x (List.mem_cons_self x xs)
    simp [batchStep, hx, ih (fun y hy => h y (List.mem_cons_of_mem x hy))]

/-- A batch whose first aborting result is `r` is cut right after `r`. -/
theorem batchStep_abort {α : Type} (abort : α → Bool) (mid rest : List α) (r : α)
    (hmid : ∀ x ∈ mid, abort x = false) (hr : abort r = true) :
    batchStep abort (mid ++ r :: rest) = (mid ++ [r], true) := by
  induction mid with
  | nil => simp [batchStep, hr]
  | cons x xs ih =>
    have hx : abort x = false := hmid x (List.mem_cons_self x xs)
    simp [batchStep, hx, ih (fun y hy => hmid y (List.mem_cons_of_mem x hy))]

/-- C7: for any task list, batch size and abort predicate, and any per-batch
completion order (`completed` is a per-batch permutation of the slicing of
`tasks`), if the first aborting result `r` appears in some batch — `pre` the
earlier batches, `mid` the results completed before `r` in `r`'s batch —
then the run returns exactly the earlier batches' results followed by `mid`
and `r`: everything collected before the abort is preserved, the pending
tasks `rest` of the current batch contribute nothing, and no batch of `post`
is ever started. -/
theorem run_in_batches_abort_ok {α : Type} (abort : α → Bool) (batchSize : Nat)
    (tasks : List α) (completed pre post : List (List α)) (mid rest : List α) (r : α)
    (hsched : List.Forall₂ List.Perm completed (chunkList batchSize tasks))
    (hdecomp : completed = pre ++ (mid ++ r :: rest) :: post)
    (hpre : ∀ b ∈ pre, ∀ x ∈ b, abort x = false)
    (hmid : ∀ x ∈ mid, abort x = false)
    (hr : abort r = true) :
    runBatches abort completed = pre.flatten ++ (mid ++ [r]) := by
  subst hdecomp
  clear hsched
  induction pre with
  | nil => simp [runBatches, batchStep_abort abort mid rest r hmid hr]
  | cons b bs ih =>
    have hb : ∀ x ∈ b, abort x = false := hpre b (List.mem_cons_self b bs)
    have hbs : ∀ b2 ∈ bs, ∀ x ∈ b2, abort x = false :=
      fun b2 h2 => hpre b2 (List.mem_cons_of_mem b h2)
    simp [runBatches, batchStep_no_abort abort b hb, ih hbs, List.append_assoc]

/-- Witness for C7: three tasks in batches of two, the second result of the
first batch aborting. -/
theorem run_in_batches_abort_ok_witness :
    List.Forall₂ List.Perm [[1, 9], [3]] (chunkList 2 [1, 9, 3]) ∧
    runBatches (fun x => decide (x = 9)) [[1, 9], [3]] = List.flatten [] ++ ([1] ++ [9]) := by
  have hchunk : chunkList 2 [1, 9, 3] = [[1, 9], [3]] := by simp [chunkList]
  have hsched : List.Forall₂ List.Perm [[1, 9], [3]] (chunkList 2 [1, 9, 3]) := by
    rw [hchunk]
    exact List.Forall₂.cons (List.Perm.refl _)
      (List.Forall₂.cons (List.Perm.refl _) List.Forall₂.nil)
  refine ⟨hsched, ?_⟩
  exact run_in_batches_abort_ok (fun x => decide (x = 9)) 2 [1, 9, 3] [[1, 9], [3]]
    [] [[3]] [1] [] 9 hsched rfl (by simp) (by decide) (by decide)

/- ----------------------------------------------------------------------
`app/requests/build_request.py`: `enforce_rate_limit`, `MIN_SPACING`
(constants from `app/core/config.py`, lines 81-82)
---------------------------------------------------------------------- -/

/-- `RATE_LIMIT` from `app/core/config.py` (line 81). -/
def RATE_LIMIT : Nat := 100

/-- `RATE_PERIOD` from `app/core/config.py` (line 82), in seconds. -/
def RATE_PERIOD : ℚ := 60

/-- `MIN_SPACING = RATE_PERIOD / RATE_LIMIT + 0.05` from
`app/requests/build_request.py` (line 51): 0.65 seconds. -/
def MIN_SPACING : ℚ := RATE_PERIOD / (RATE_LIMIT : ℚ) + 1 / 20

/-- `enforce_rate_limit()` from `app/requests/build_request.py`
(lines 225-239), as a function of the global `last_request_time` and the
monotonic-clock reading `now` taken under `RateLock`: the literal spacing
constant in the body is 0.8 seconds (line 234).  The returned value is the
new `last_request_time` — the initiation instant at which the call is
released toward the journey planner (idealized exact sleep). -/
def enforce_rate_limit (lastRequestTime now : ℚ) : ℚ :=
  let wait := 4 / 5 - (now - lastRequestTime)
  if 0 < wait then now + wait else now

/-- The sequence of call-initiation times produced by consecutive
`enforce_rate_limit` passages, given the clock readings `now` at each lock
acquisition. -/
def gateTrace (last : ℚ) : List ℚ → List ℚ
  | [] => []
  | now :: rest =>
    enforce_rate_limit last now :: gateTrace (enforce_rate_limit last now) rest

/-- Clock monotonicity across the serializing `RateLock`: each clock reading
is at least the `last_request_time` written by the previous holder. -/
def arrivalsOk (last : ℚ) : List ℚ → Bool
  | [] => true
  | now :: rest => decide (last ≤ now) && arrivalsOk (enforce_rate_limit last now) rest

/-- Consecutive elements of the list differ by at least `g`. -/
def Spaced (g : ℚ) : List ℚ → Prop
  | [] => True
  | [_] => True
  | t :: u :: rest => t + g ≤ u ∧ Spaced g (u :: rest)

/-- One gate passage advances `last_request_time` by at least 0.8 s (the
clock-monotonicity hypothesis is kept for the model reading even though the
arithmetic happens not to need it). -/
theorem enforce_ge (last now : ℚ) (_h : last ≤ now) :
    last + 4 / 5 ≤ enforce_rate_limit last now := by
  simp only [enforce_rate_limit]
  split
  · linarith
  · rename_i hw
    push_neg at hw
    linarith

/-- The gate trace is 0.8-spaced and bounded below by the initial state. -/
theorem gateTrace_spaced : ∀ (l : List ℚ) (last : ℚ), arrivalsOk last l = true →
    Spaced (4 / 5) (gateTrace last l) ∧ ∀ t ∈ gateTrace last l, last + 4 / 5 ≤ t := by
  intro l
  induction l with
  | nil => intro last _; exact ⟨trivial, by simp [gateTrace]⟩
  | cons now rest ih =>
    intro last h
    simp only [arrivalsOk, Bool.and_eq_true, decide_eq_true_eq] at h
    obtain ⟨hle, hrest⟩ := h
    obtain ⟨hsp, hall⟩ := ih (enforce_rate_limit last now) hrest
    have h1 : last + 4 / 5 ≤ enforce_rate_limit last now := enforce_ge last now hle
    constructor
    · simp only [gateTrace]
      match hm : gateTrace (enforce_rate_limit last now) rest with
      | [] => trivial
      | u :: tail =>
        refine ⟨?_, ?_⟩
        · have := hall u (by rw [hm]; exact List.mem_cons_self u tail)
          linarith
        · rw [hm] at hsp
          exact hsp
    · intro t ht
      simp only [gateTrace, List.mem_cons] at ht
      rcases ht with rfl | ht
      · exact h1
      · have := hall t ht
        linarith

/-- Spacing is antitone in the gap. -/
theorem spaced_mono (g g' : ℚ) (hgg : g' ≤ g) : ∀ l, Spaced g l → Spaced g' l
  | [] , _ => trivial
  | [_], _ => trivial
  | t :: u :: rest, h => by
    obtain ⟨h1, h2⟩ := h
    exact ⟨by linarith, spaced_mono g g' hgg (u :: rest) h2⟩

/-- The tail of a spaced list is spaced. -/
theorem spaced_tail (g t : ℚ) (rest : List ℚ) (h : Spaced g (t :: rest)) :
    Spaced g rest := by
  match rest with
  | [] => trivial
  | u :: tail => exact h.2

/-- Every later element of a spaced list is at least one gap above the head. -/
theorem spaced_head_le (g : ℚ) (hg : 0 ≤ g) : ∀ (rest : List ℚ) (t : ℚ),
    Spaced g (t :: rest) → ∀ u ∈ rest, t + g ≤ u := by
  intro rest
  induction rest with
  | nil => intro t _ u hu; simp at hu
  | cons v tail ih =>
    intro t h u hu
    obtain ⟨h1, h2⟩ := h
    rcases List.mem_cons.mp hu with rfl | hu
    · exact h1
    · have := ih v h2 u hu
      linarith

/-- A `g`-spaced list has at most `n + 1` elements inside any interval of
length at most `n·g`. -/
theorem spaced_filter_count (g : ℚ) (hg : 0 < g) : ∀ (ts : List ℚ), Spaced g ts →
    ∀ (n : Nat) (a b : ℚ), b - a ≤ n * g →
    (ts.filter (fun t => decide (a ≤ t) && decide (t ≤ b))).length ≤ n + 1 := by
  intro ts
  induction ts with
  | nil => intro _ n a b _; simp
  | cons t rest ih =>
    intro hsp n a b hab
    have hsp' : Spaced g rest := spaced_tail g t rest hsp
    have hhead : ∀ u ∈ rest, t + g ≤ u := spaced_head_le g (le_of_lt hg) rest t hsp
    by_cases hmem : a ≤ t ∧ t ≤ b
    · rw [List.filter_cons_of_pos (by simp [hmem.1, hmem.2])]
      match n with
      | 0 =>
        have hnil : rest.filter (fun u => decide (a ≤ u) && decide (u ≤ b)) = [] := by
          rw [List.filter_eq_nil_iff]
          intro u hu
          have h1 : t + g ≤ u := hhead u hu
          have h2 : ¬(u ≤ b) := by
            simp only [Nat.cast_zero, zero_mul] at hab
            nlinarith [hmem.1, hmem.2]
          simp [h2]
        rw [hnil]
        simp
      | n' + 1 =>
        have heq : rest.filter (fun u => decide (a ≤ u) && decide (u ≤ b)) =
            rest.filter (fun u => decide (t + g ≤ u) && decide (u ≤ b)) := by
          apply List.filter_congr
          intro u hu
          have h1 : t + g ≤ u := hhead u hu
          have h2 : a ≤ u := by linarith [hmem.1]
          simp [h1, h2]
        have hb' : b - (t + g) ≤ n' * g := by
          push_cast at hab ⊢
          nlinarith [hmem.1]
        have := ih hsp' n' (t + g) b hb'
        rw [heq]
        simp only [List.length_cons]
        omega
    · rw [List.filter_cons_of_neg (by simpa using fun h1 h2 => hmem ⟨h1, h2⟩)]
      exact (ih hsp' n a b hab).trans (by omega)

/-- C8: under clock monotonicity, consecutive call-initiation times of the
gate differ by at least `MIN_SPACING` (the code's literal 0.8 s spacing even
exceeds `MIN_SPACING = RATE_PERIOD/RATE_LIMIT + 0.05 = 0.65`), and any
sliding window of length `RATE_PERIOD` contains at most `RATE_LIMIT`
initiations (at most 76, in fact). -/
theorem gate_spacing_ok (last : ℚ) (arrivals : List ℚ)
    (h : arrivalsOk last arrivals = true) (w : ℚ) :
    Spaced MIN_SPACING (gateTrace last arrivals) ∧
    ((gateTrace last arrivals).filter
      (fun t => decide (w ≤ t) && decide (t ≤ w + RATE_PERIOD))).length ≤ RATE_LIMIT := by
  have h45 := (gateTrace_spaced arrivals last h).1
  constructor
  · exact spaced_mono (4 / 5) MIN_SPACING
      (by norm_num [MIN_SPACING, RATE_PERIOD, RATE_LIMIT]) _ h45
  · have hcount := spaced_filter_count (4 / 5) (by norm_num) _ h45 75 w (w + RATE_PERIOD)
      (by norm_num [RATE_PERIOD])
    have : (75 : Nat) + 1 ≤ RATE_LIMIT := by norm_num [RATE_LIMIT]
    omega

/-- Witness for C8: two calls arriving at clock times 0 and 1. -/
theorem gate_spacing_ok_witness :
    arrivalsOk 0 [0, 1] = true ∧
    (Spaced MIN_SPACING (gateTrace 0 [0, 1]) ∧
      ((gateTrace 0 [0, 1]).filter
        (fun t => decide (0 ≤ t) && decide (t ≤ 0 + RATE_PERIOD))).length ≤ RATE_LIMIT) :=
  ⟨by norm_num [arrivalsOk, enforce_rate_limit],
   gate_spacing_ok 0 [0, 1] (by norm_num [arrivalsOk, enforce_rate_limit]) 0⟩
